import Mathlib

set_option maxRecDepth 100000

/-!
Verification of the message-logging pipeline of `server.js` (a WhatsApp
group-message logging server).  The JavaScript source is shallowly embedded:
JS strings become `String` (with character-list reasoning via `String.data`),
the filesystem becomes an association list from filename to content together
with an explicit write-success flag, the clock becomes an explicit epoch
millisecond parameter, and every fallible operation returns an `Option` or
`Except` value instead of throwing.
-/

namespace WhatsappWeb

/-- The set of whitespace characters matched by the JavaScript regex class
`\s` (and removed by `String.prototype.trim`): ASCII blanks plus the Unicode
space separators, line separators and the BOM. -/
def isSpaceJS (c : Char) : Bool :=
  c = ' ' || c = '\t' || c = '\n' || c = '\r' || c = '\x0b' || c = '\x0c' ||
  c = ' ' || c = ' ' || (' ' ≤ c && c ≤ ' ') ||
  c = ' ' || c = ' ' || c = ' ' || c = ' ' ||
  c = '　' || c = '﻿'

/-- A character kept by the regex replace `/[^a-z0-9\s]/g → \x22\x22` after
lowercasing: lowercase ASCII letters, digits, and whitespace. -/
def isSlugKeep (c : Char) : Bool :=
  ('a' ≤ c && c ≤ 'z') || ('0' ≤ c && c ≤ '9') || isSpaceJS c

/-- `String.prototype.toLowerCase` restricted to the ASCII range, which is the
only range the configured group names and test inputs use. -/
def jsToLower (s : String) : String := String.mk (s.data.map Char.toLower)

/-- Character-list form of `String.prototype.trim`: drop leading and trailing
JS whitespace. -/
def trimChars (l : List Char) : List Char :=
  ((l.dropWhile isSpaceJS).reverse.dropWhile isSpaceJS).reverse

/-- `String.prototype.trim`. -/
def jsTrim (s : String) : String := String.mk (trimChars s.data)

/-- Worker for the regex replace `/\s+/g → hyphen`: the flag records whether
the previous character belonged to a whitespace run, so the first character of
each run emits one hyphen and the rest of the run is dropped. -/
def hyphenateAux : Bool → List Char → List Char
  | _, [] => []
  | inRun, c :: rest =>
    if isSpaceJS c then
      if inRun then hyphenateAux true rest
      else '-' :: hyphenateAux true rest
    else c :: hyphenateAux false rest

/-- The regex replace `/\s+/g → hyphen`: every maximal run of JS whitespace
becomes a single hyphen. -/
def hyphenateRuns (l : List Char) : List Char := hyphenateAux false l

/-- The slug derivation of `server.js` (`logGroupMessage`, and repeated
verbatim in the two API route handlers): lowercase, strip every character
outside `[a-z0-9\s]`, replace each whitespace run with a hyphen, then trim.
Note that the trim runs after hyphenation, when no whitespace remains. -/
def slug (name : String) : String :=
  String.mk (trimChars (hyphenateRuns ((jsToLower name).data.filter isSlugKeep)))

/-- The configured monitored group display names (`TARGET_GROUP_NAMES` in
`server.js`). -/
def TARGET_GROUP_NAMES : List String :=
  ["retail all-stars", "Seeds+Customer Support", "Winwise Agent Support",
   "Merchant Acquisition_Paybox"]

/-! ### Clock model

`new Date()` is modelled by an explicit epoch-millisecond parameter `ms`.
`toISOString` renders the UTC calendar date and time, so `getDateString`
(which is `toISOString().split('T')[0]` in the source) is the UTC civil date
of the instant, computed here with the standard days-to-civil conversion. -/

/-- Convert a day number (days since 1970-01-01) to a UTC civil date
`(year, month, day)`. -/
def civilFromDays (z : Int) : Int × Int × Int :=
  let z := z + 719468
  let era := Int.fdiv z 146097
  let doe := z - era * 146097
  let yoe := Int.fdiv (doe - Int.fdiv doe 1460 + Int.fdiv doe 36524 -
    Int.fdiv doe 146096) 365
  let y := yoe + era * 400
  let doy := doe - (365 * yoe + Int.fdiv yoe 4 - Int.fdiv yoe 100)
  let mp := Int.fdiv (5 * doy + 2) 153
  let d := doy - Int.fdiv (153 * mp + 2) 5 + 1
  let m := mp + (if mp < 10 then 3 else -9)
  (y + (if m ≤ 2 then 1 else 0), m, d)

/-- Zero-pad a (nonnegative) number to two digits. -/
def pad2 (n : Int) : String := (if n < 10 then "0" else "") ++ toString n

/-- Zero-pad a (nonnegative) number to three digits. -/
def pad3 (n : Int) : String :=
  (if n < 10 then "00" else if n < 100 then "0" else "") ++ toString n

/-- `getDateString` of `server.js`: `new Date().toISOString().split('T')[0]`,
i.e. the `YYYY-MM-DD` rendering of the UTC civil date of the instant. -/
def getDateString (ms : Int) : String :=
  let c := civilFromDays (Int.fdiv ms 86400000)
  toString c.1 ++ "-" ++ pad2 c.2.1 ++ "-" ++ pad2 c.2.2

/-- `getTimestamp` of `server.js`: `new Date().toISOString()`, the full
RFC3339 / ISO-8601 UTC rendering of the instant. -/
def getTimestamp (ms : Int) : String :=
  let msod := Int.fmod ms 86400000
  getDateString ms ++ "T" ++ pad2 (Int.fdiv msod 3600000) ++ ":" ++
    pad2 (Int.fdiv (Int.fmod msod 3600000) 60000) ++ ":" ++
    pad2 (Int.fdiv (Int.fmod msod 60000) 1000) ++ "." ++
    pad3 (Int.fmod msod 1000) ++ "Z"

/-- The server's local calendar date at instant `ms` for a server whose zone
is `offsetMinutes` minutes ahead of UTC.  This renders the spec's phrase
"server local date"; the source never computes it. -/
def localDateString (ms offsetMinutes : Int) : String :=
  getDateString (ms + offsetMinutes * 60000)

/-! ### Chats, contacts and the matcher of the message handler -/

/-- The fields of a `whatsapp-web.js` chat that the handler reads.  An absent
group name is modelled by the empty string, which is exactly as falsy as
`undefined` in the guard `chat.isGroup && chat.name`. -/
structure Chat where
  name : String
  isGroup : Bool

/-- The contact fields read when naming a sender; `none` models an absent
(undefined) field. -/
structure Contact where
  name : Option String
  pushname : Option String
  number : Option String

/-- JavaScript `a || b` for an optional string `a`: the fallback is taken when
`a` is absent or empty (both are falsy). -/
def jsOr (a : Option String) (b : String) : String :=
  match a with
  | none => b
  | some s => if s = "" then b else s

/-- `contact.name || contact.pushname || contact.number || 'Unknown'`. -/
def senderNameOf (c : Contact) : String :=
  jsOr c.name (jsOr c.pushname (jsOr c.number "Unknown"))

/-- `messageData.body || '[No text content]'`. -/
def bodyContent (body : Option String) : String := jsOr body "[No text content]"

/-- The normalization the message handler applies to both the chat name and
every configured name before comparing: `toLowerCase().trim()`. -/
def normName (s : String) : String := jsTrim (jsToLower s)

/-- The matcher of the `message` handler in `server.js`:
`chat.isGroup && chat.name` guards the block, and inside it the normalized
chat name is looked up with `includes` in the normalized configured list. -/
def shouldLog (chat : Chat) : Bool :=
  chat.isGroup && chat.name != "" &&
    (TARGET_GROUP_NAMES.map normName).contains (normName chat.name)

/-! ### Filesystem model and the segment writer -/

/-- The log directory as an association list from filename to content, plus a
flag saying whether appends currently succeed (false models disk-full or
permission errors: `fs.appendFile` rejects). -/
structure FS where
  files : List (String × String)
  writeOk : Bool

/-- Read a file of the modelled directory. -/
def fsLookup : List (String × String) → String → Option String
  | [], _ => none
  | (k, v) :: rest, n => if k = n then some v else fsLookup rest n

/-- Overwrite (or create) a file of the modelled directory. -/
def fsSet : List (String × String) → String → String → List (String × String)
  | [], n, c => [(n, c)]
  | (k, v) :: rest, n, c =>
    if k = n then (n, c) :: rest else (k, v) :: fsSet rest n c

/-- `fs.appendFile`: create the file when absent, append otherwise; `none`
models a rejected promise (thrown write error). -/
def fsAppendFile (fs : FS) (n entry : String) : Option FS :=
  if fs.writeOk then
    some { fs with files := fsSet fs.files n ((fsLookup fs.files n).getD "" ++ entry) }
  else none

/-- The segment filename chosen by `logGroupMessage`:
`{slug of chat.name}-messages-{getDateString()}.txt`. -/
def segmentFilename (chatName : String) (ms : Int) : String :=
  slug chatName ++ "-messages-" ++ getDateString ms ++ ".txt"

/-- The serialized form of one record:
`[{timestamp}] {senderName}: {body}` followed by a newline. -/
def logEntryLine (ts sender body : String) : String :=
  "[" ++ ts ++ "] " ++ sender ++ ": " ++ body ++ "\n"

/-- `logGroupMessage` of `server.js`: build the filename and log line, attempt
the append, and convert any thrown error into a `false` return (the whole
body is wrapped in try/catch, so the function never throws). -/
def logGroupMessage (fs : FS) (ms : Int) (chatName : String) (contact : Contact)
    (body : Option String) : Bool × FS :=
  let filename := segmentFilename chatName ms
  let entry := logEntryLine (getTimestamp ms) (senderNameOf contact) (bodyContent body)
  match fsAppendFile fs filename entry with
  | some fs2 => (true, fs2)
  | none => (false, fs)

/-- Observable effects of one run of the `message` handler. -/
structure MsgEffects where
  logAttempted : Bool
  logResult : Option Bool
  relayed : Bool
deriving DecidableEq

/-- The `client.on('message')` handler: match the chat against the configured
groups, attempt the file append when matched, and in every case relay the
message to the connected socket clients (`io.emit('message', ...)`). -/
def handleMessage (fs : FS) (ms : Int) (chat : Chat) (contact : Contact)
    (body : Option String) : MsgEffects × FS :=
  if shouldLog chat then
    let r := logGroupMessage fs ms chat.name contact body
    ({ logAttempted := true, logResult := some r.1, relayed := true }, r.2)
  else
    ({ logAttempted := false, logResult := none, relayed := true }, fs)

/-! ### Line counting and the two read-only API routes -/

/-- `content.split('\n')` on the character list of the content: the list of
newline-separated segments (an empty content yields one empty segment, and a
trailing newline yields a trailing empty segment, exactly as in JS). -/
def splitNl : List Char → List (List Char)
  | [] => [[]]
  | c :: rest =>
    if c = '\n' then [] :: splitNl rest
    else
      match splitNl rest with
      | [] => [[c]]
      | l :: ls => (c :: l) :: ls

/-- The predicate of `.filter(line => line.trim())`: a split segment is kept
when its trimmed form is non-empty (a non-empty string is truthy). -/
def keepLine (l : List Char) : Bool := !(trimChars l).isEmpty

/-- `messageCount` as computed by the `/api/logging-status` route:
`content.split('\n').filter(line => line.trim()).length`. -/
def messageCountOf (content : String) : Nat :=
  ((splitNl content.data).filter keepLine).length

/-- `lines` as computed by the `/api/logs/:filename` route:
`content.split('\n').filter(line => line.trim()).length`. -/
def lineCountOf (content : String) : Nat :=
  ((splitNl content.data).filter keepLine).length

/-- Spec-side characterization of both counts: the number of split segments
containing at least one non-whitespace character. -/
def specLineCount (content : String) : Nat :=
  ((splitNl content.data).filter (fun l => l.any (fun c => !isSpaceJS c))).length

/-- Character-list prefix test (the first list is a prefix of the second). -/
def isPrefixList : List Char → List Char → Bool
  | [], _ => true
  | _ :: _, [] => false
  | a :: as, b :: bs => a = b && isPrefixList as bs

/-- `String.prototype.startsWith`. -/
def jsStartsWith (s pre : String) : Bool := isPrefixList pre.data s.data

/-- `String.prototype.endsWith`. -/
def jsEndsWith (s suf : String) : Bool :=
  isPrefixList suf.data.reverse s.data.reverse

/-- The security check of `/api/logs/:filename`: the name must start with
`{slug of some configured group}-messages-` and end with `.txt`. -/
def isValidLogFile (filename : String) : Bool :=
  TARGET_GROUP_NAMES.any (fun g =>
    jsStartsWith filename (slug g ++ "-messages-") && jsEndsWith filename ".txt")

/-- Responses of the `/api/logs/:filename` route: HTTP 400, HTTP 404, or the
HTTP 200 payload `{content, lines}`. -/
inductive LogResult where
  | invalidName
  | notFound
  | ok (content : String) (lines : Nat)
deriving DecidableEq

/-- The `/api/logs/:filename` route: validate the name before any filesystem
operation, then read the file, mapping a missing file (ENOENT) to 404.  The
second component records whether the filesystem was touched at all. -/
def getLogFileRoute (files : List (String × String)) (filename : String) :
    LogResult × Bool :=
  if isValidLogFile filename then
    match fsLookup files filename with
    | some content => (.ok content (lineCountOf content), true)
    | none => (.notFound, true)
  else
    (.invalidName, false)

/-- Content of a fresh segment after appending the given
`(timestamp, sender, body)` entries in order. -/
def appendEntriesContent (entries : List (String × String × String)) : String :=
  entries.foldr (fun e acc => logEntryLine e.1 e.2.1 e.2.2 ++ acc) ""

/-- The string contains no newline character. -/
def noNl (s : String) : Prop := '\n' ∉ s.data

instance (s : String) : Decidable (noNl s) := by
  unfold noNl; infer_instance

/-! ### Directory model and the status route -/

/-- One directory entry as seen by the status route: its name, its content,
its stat fields, and whether `fs.stat`/`fs.readFile` succeed on it. -/
structure DirEntry where
  name : String
  content : String
  size : Nat
  birthtime : Int
  mtime : Int
  readable : Bool
deriving DecidableEq

/-- One element of the `files` array of the `/api/logging-status` payload. -/
structure FileStat where
  filename : String
  size : Nat
  created : Int
  modified : Int
  messageCount : Nat
deriving DecidableEq

/-- The `/api/logging-status` payload. -/
structure StatusResponse where
  targetGroups : List String
  totalLogFiles : Nat
  files : List FileStat
deriving DecidableEq

/-- The filter of the status route: the filename starts with
`{slug of some configured group}-messages-` (no `.txt` check here). -/
def fileMatchesTarget (file : String) : Bool :=
  TARGET_GROUP_NAMES.any (fun g => jsStartsWith file (slug g ++ "-messages-"))

/-- Find a directory entry by name (first match). -/
def findEntry : List DirEntry → String → Option DirEntry
  | [], _ => none
  | e :: rest, n => if e.name = n then some e else findEntry rest n

/-- The stat record the route builds for a readable entry. -/
def statOf (e : DirEntry) : FileStat :=
  { filename := e.name, size := e.size, created := e.birthtime,
    modified := e.mtime, messageCount := messageCountOf e.content }

/-- `fs.stat` followed by `fs.readFile` on one filename: fails (rejected
promise) when the entry is missing or unreadable. -/
def statOne (dir : List DirEntry) (filename : String) : Except Unit FileStat :=
  match findEntry dir filename with
  | none => .error ()
  | some e => if e.readable then .ok (statOf e) else .error ()

/-- `Promise.all` over the per-file stats: the whole batch rejects as soon as
any single file rejects. -/
def statAll (dir : List DirEntry) : List String → Except Unit (List FileStat)
  | [] => .ok []
  | f :: rest =>
    match statOne dir f, statAll dir rest with
    | .ok s, .ok ss => .ok (s :: ss)
    | .ok _, .error e => .error e
    | .error e, _ => .error e

/-- `fileStats.sort((a, b) => b.modified - a.modified)`: stable sort placing
the most recently modified first (JS array sort is stable). -/
def sortByModified (l : List FileStat) : List FileStat :=
  List.insertionSort (fun a b => b.modified ≤ a.modified) l

/-- The `/api/logging-status` route: list the directory (`dirReadable = false`
models an unreadable directory, i.e. `fs.readdir` rejecting), keep the names
matching a configured group, stat and read each, and answer with the sorted
stats; any rejection anywhere is caught by the surrounding try/catch and
becomes an HTTP 500 (`Except.error`). -/
def loggingStatus (dirReadable : Bool) (dir : List DirEntry) :
    Except Unit StatusResponse :=
  if dirReadable then
    let targetLogFiles := (dir.map DirEntry.name).filter fileMatchesTarget
    match statAll dir targetLogFiles with
    | .ok stats =>
      .ok { targetGroups := TARGET_GROUP_NAMES,
            totalLogFiles := targetLogFiles.length,
            files := sortByModified stats }
    | .error e => .error e
  else .error ()

/-- An unreadable matching segment (stat or read rejects on it). -/
def statusCexUnreadable : DirEntry :=
  { name := "retail-allstars-messages-2025-09-25.txt", content := "",
    size := 0, birthtime := 0, mtime := 0, readable := false }

/-- A readable matching segment with one logged message. -/
def statusCexReadable : DirEntry :=
  { name := "retail-allstars-messages-2025-09-26.txt",
    content := "[t] Jane: hi\n", size := 13, birthtime := 1, mtime := 2,
    readable := true }

/-- A directory holding one unreadable and one readable matching segment. -/
def statusCexDir : List DirEntry := [statusCexUnreadable, statusCexReadable]

/-- A fully readable directory with two matching segments of different
modification times plus one unrelated file. -/
def statusOkDir : List DirEntry :=
  [{ name := "retail-allstars-messages-2025-09-25.txt",
     content := "[t] Jane: hi\n[t] Bob: yo\n", size := 25, birthtime := 0,
     mtime := 5, readable := true },
   { name := "notes.txt", content := "x", size := 1, birthtime := 0,
     mtime := 9, readable := true },
   { name := "seedscustomer-support-messages-2025-09-27.txt",
     content := "[t] Ada: ok\n", size := 12, birthtime := 3, mtime := 7,
     readable := true }]

end WhatsappWeb

namespace WhatsappWeb

/-- C1 counterexample: the spec's concrete slug equation fails on the code.
Stripping deletes the hyphen of `ALL-Stars` without leaving a space, and the
surrounding blanks become hyphens before the final trim, so the two slugs
differ. -/
theorem slug_spec_equation_cex :
    slug " Retail ALL-Stars! " ≠ slug "retail all stars" := by decide

/-- C1 (amended): the slug of the spec's first test input is
`-retail-allstars-`, while the slug of the second is `retail-all-stars`; the
derivation is still a pure function, so it is deterministic, but the two
inputs do not collapse to the same slug. -/
theorem slug_spec_equation_amended :
    slug " Retail ALL-Stars! " = "-retail-allstars-" ∧
    slug "retail all stars" = "retail-all-stars" := by
  constructor
  · decide
  · decide

/-- C2: a filename failing the pattern check of `/api/logs/:filename` (in
particular `../../etc/passwd`) is answered with the invalid-name client error
and the filesystem is never touched (the answer is the same for every
filesystem state and the touched flag is false); a filename passing the check
whose file is absent is answered with the not-found error. -/
theorem content_query_validation (files : List (String × String)) (filename : String) :
    (isValidLogFile filename = false →
      getLogFileRoute files filename = (LogResult.invalidName, false)) ∧
    isValidLogFile "../../etc/passwd" = false ∧
    (isValidLogFile filename = true → fsLookup files filename = none →
      getLogFileRoute files filename = (LogResult.notFound, true)) := by
  refine ⟨fun h => ?_, by decide, fun h1 h2 => ?_⟩
  · simp [getLogFileRoute, h]
  · simp [getLogFileRoute, h1, h2]

/-- C2 witness: the traversal attempt is rejected without filesystem access,
and a conforming but absent filename is answered not-found. -/
theorem content_query_validation_witness :
    getLogFileRoute [] "../../etc/passwd" = (LogResult.invalidName, false) ∧
    getLogFileRoute [] "retail-allstars-messages-2025-01-01.txt" =
      (LogResult.notFound, true) :=
  ⟨(content_query_validation [] "../../etc/passwd").1 (by decide),
   (content_query_validation [] "retail-allstars-messages-2025-01-01.txt").2.2
     (by decide) rfl⟩

/-- The boolean matcher of the message handler, characterized as exact
normalized equality against some configured group name. -/
theorem shouldLog_iff (chat : Chat) :
    shouldLog chat = true ↔
      chat.isGroup = true ∧ chat.name ≠ "" ∧
        ∃ g ∈ TARGET_GROUP_NAMES, normName chat.name = normName g := by
  unfold shouldLog
  simp only [Bool.and_eq_true, bne_iff_ne, ne_eq, List.contains, List.elem_iff,
    List.mem_map, and_assoc]
  constructor
  · rintro ⟨h1, h2, g, hg, he⟩
    exact ⟨h1, h2, g, hg, he.symm⟩
  · rintro ⟨h1, h2, g, hg, he⟩
    exact ⟨h1, h2, g, hg, he.symm⟩

/-- C3: the `message` handler attempts a log append exactly when the chat is
a group chat with a non-empty name whose lowercased, trimmed name equals the
lowercased, trimmed form of some configured target group name; matching is
exact equality after normalization, never substring containment, and nothing
is appended for non-group chats. -/
theorem ingestion_append_iff_exact_match (fs : FS) (ms : Int) (chat : Chat)
    (contact : Contact) (body : Option String) :
    (handleMessage fs ms chat contact body).1.logAttempted = true ↔
      chat.isGroup = true ∧ chat.name ≠ "" ∧
        ∃ g ∈ TARGET_GROUP_NAMES, normName chat.name = normName g := by
  rw [← shouldLog_iff]
  by_cases h : shouldLog chat <;> simp [handleMessage, h]

/-- C4: when the append fails (the write throws inside `logGroupMessage`),
the handler receives the failure value `false` instead of an exception, the
filesystem is unchanged, and the message is still relayed to the connected
clients. -/
theorem write_failure_nonfatal (fs : FS) (ms : Int) (chat : Chat)
    (contact : Contact) (body : Option String)
    (hfail : fs.writeOk = false) (hmatch : shouldLog chat = true) :
    handleMessage fs ms chat contact body =
      ({ logAttempted := true, logResult := some false, relayed := true }, fs) := by
  simp [handleMessage, hmatch, logGroupMessage, fsAppendFile, hfail]

/-- C4 witness: a failing write on a matched group message is reported as
`some false` with the event still relayed. -/
theorem write_failure_nonfatal_witness :
    handleMessage ⟨[], false⟩ 0 ⟨"retail all-stars", true⟩ ⟨none, none, none⟩ none =
      ({ logAttempted := true, logResult := some false, relayed := true },
       (⟨[], false⟩ : FS)) :=
  write_failure_nonfatal _ _ _ _ _ rfl (by decide)

/-- C6 counterexample: `getDateString` renders the UTC date, not the server's
local date.  At epoch instant 0 a server one hour west of UTC is still on
1969-12-31, yet the segment filename embeds 1970-01-01. -/
theorem segment_date_not_local_cex :
    segmentFilename "retail all-stars" 0 ≠
      slug "retail all-stars" ++ "-messages-" ++ localDateString 0 (-60) ++ ".txt" := by
  decide

/-- C6 (amended): the date embedded in the segment filename is the UTC
calendar date of the append instant, so any two appends for the same group
during one UTC calendar day choose the same segment file. -/
theorem segment_date_is_utc_date (chatName : String) (ms1 ms2 : Int)
    (h : Int.fdiv ms1 86400000 = Int.fdiv ms2 86400000) :
    segmentFilename chatName ms1 = segmentFilename chatName ms2 := by
  unfold segmentFilename getDateString
  rw [h]

/-- C6 witness: the first and last millisecond of the UTC day 1970-01-01 map
to the same segment file. -/
theorem segment_date_is_utc_date_witness :
    segmentFilename "retail all-stars" 0 = segmentFilename "retail all-stars" 86399999 :=
  segment_date_is_utc_date _ 0 86399999 (by decide)

/-- Reading back the file just written by `fsSet` yields the written content. -/
theorem fsLookup_fsSet_self (l : List (String × String)) (n c : String) :
    fsLookup (fsSet l n c) n = some c := by
  induction l with
  | nil => simp [fsSet, fsLookup]
  | cons kv rest ih =>
    obtain ⟨k, v⟩ := kv
    by_cases h : k = n
    · simp [fsSet, h, fsLookup]
    · simp [fsSet, h, fsLookup, ih]

/-- C9: a successful append returns `true` and extends the file named
`{slug}-messages-{YYYY-MM-DD}.txt` (slug derived from the group's display
name) with exactly the single line `[{timestamp}] {senderName}: {body}`
followed by a newline, preserving the previous content as a prefix. -/
theorem record_serialization (fs : FS) (ms : Int) (chatName : String)
    (c : Contact) (body : Option String) (h : fs.writeOk = true) :
    (logGroupMessage fs ms chatName c body).1 = true ∧
    fsLookup (logGroupMessage fs ms chatName c body).2.files
        (segmentFilename chatName ms) =
      some ((fsLookup fs.files (segmentFilename chatName ms)).getD "" ++
        logEntryLine (getTimestamp ms) (senderNameOf c) (bodyContent body)) ∧
    segmentFilename chatName ms =
      slug chatName ++ "-messages-" ++ getDateString ms ++ ".txt" ∧
    logEntryLine (getTimestamp ms) (senderNameOf c) (bodyContent body) =
      "[" ++ getTimestamp ms ++ "] " ++ senderNameOf c ++ ": " ++
        bodyContent body ++ "\n" := by
  refine ⟨?_, ?_, rfl, rfl⟩
  · simp [logGroupMessage, fsAppendFile, h]
  · simp [logGroupMessage, fsAppendFile, h, fsLookup_fsSet_self]

/-- C9 witness: a concrete append of body `hello` by `Jane` at epoch instant
0 writes the expected single line to the expected file. -/
theorem record_serialization_witness :
    (logGroupMessage ⟨[], true⟩ 0 "retail all-stars" ⟨some "Jane", none, none⟩
        (some "hello")).1 = true ∧
    fsLookup (logGroupMessage ⟨[], true⟩ 0 "retail all-stars"
        ⟨some "Jane", none, none⟩ (some "hello")).2.files
        (segmentFilename "retail all-stars" 0) =
      some ((fsLookup (FS.files ⟨[], true⟩) (segmentFilename "retail all-stars" 0)).getD "" ++
        logEntryLine (getTimestamp 0) (senderNameOf ⟨some "Jane", none, none⟩)
          (bodyContent (some "hello"))) ∧
    segmentFilename "retail all-stars" 0 =
      slug "retail all-stars" ++ "-messages-" ++ getDateString 0 ++ ".txt" ∧
    logEntryLine (getTimestamp 0) (senderNameOf ⟨some "Jane", none, none⟩)
        (bodyContent (some "hello")) =
      "[" ++ getTimestamp 0 ++ "] " ++ senderNameOf ⟨some "Jane", none, none⟩ ++
        ": " ++ bodyContent (some "hello") ++ "\n" :=
  record_serialization ⟨[], true⟩ 0 "retail all-stars" ⟨some "Jane", none, none⟩
    (some "hello") rfl

/-- Trimming yields the empty list exactly when every character is JS
whitespace. -/
theorem trimChars_eq_nil_iff (l : List Char) :
    trimChars l = [] ↔ ∀ c ∈ l, isSpaceJS c = true := by
  unfold trimChars
  rw [List.reverse_eq_nil_iff, List.dropWhile_eq_nil_iff]
  constructor
  · intro h c hc
    have hsplit := List.takeWhile_append_dropWhile isSpaceJS l
    rw [← hsplit] at hc
    rcases List.mem_append.mp hc with h1 | h2
    · exact List.mem_takeWhile_imp h1
    · exact h c (List.mem_reverse.mpr h2)
  · intro h c hc
    exact h c ((List.dropWhile_sublist isSpaceJS).subset (List.mem_reverse.mp hc))

/-- The kept-line predicate of both routes holds exactly when the split
segment contains a non-whitespace character. -/
theorem keepLine_eq_any (l : List Char) :
    keepLine l = l.any (fun c => !isSpaceJS c) := by
  rw [Bool.eq_iff_iff]
  unfold keepLine
  simp only [Bool.not_eq_true', List.any_eq_true]
  constructor
  · intro h
    by_contra hall
    push_neg at hall
    have hsp : ∀ c ∈ l, isSpaceJS c = true := by
      intro c hc
      have h2 := hall c hc
      cases hx : isSpaceJS c
      · exact absurd hx h2
      · rfl
    have he : (trimChars l).isEmpty = true :=
      List.isEmpty_iff.mpr ((trimChars_eq_nil_iff l).mpr hsp)
    rw [he] at h
    simp at h
  · rintro ⟨c, hc, hns⟩
    cases hx : (trimChars l).isEmpty
    · rfl
    · have hall := (trimChars_eq_nil_iff l).mp (List.isEmpty_iff.mp hx)
      simp [hall c hc] at hns

/-- The split of a list with one extra trailing newline is the original split
plus one trailing empty segment. -/
theorem splitNl_ne_nil (l : List Char) : splitNl l ≠ [] := by
  cases l with
  | nil => simp [splitNl]
  | cons c rest =>
    unfold splitNl
    by_cases h : c = '\n'
    · simp [h]
    · simp only [if_neg h]
      cases hr : splitNl rest <;> simp

/-- Appending a final newline appends one empty segment to the split. -/
theorem splitNl_append_newline (l : List Char) :
    splitNl (l ++ ['\n']) = splitNl l ++ [[]] := by
  induction l with
  | nil => simp [splitNl]
  | cons c rest ih =>
    by_cases h : c = '\n'
    · simp [splitNl, h, ih]
    · cases hr : splitNl rest with
      | nil => exact absurd hr (splitNl_ne_nil rest)
      | cons a as =>
        show splitNl (c :: rest ++ ['\n']) = splitNl (c :: rest) ++ [[]]
        rw [List.cons_append]
        unfold splitNl
        rw [if_neg h, if_neg h, ih, hr, List.cons_append]
        simp

/-- C10: the message count of `/api/logging-status` and the line count of
`/api/logs/:filename` are the same function of the file content, both equal
the number of newline-separated segments holding at least one non-whitespace
character, and a trailing newline never changes the count. -/
theorem count_agreement (content : String) :
    messageCountOf content = lineCountOf content ∧
    messageCountOf content = specLineCount content ∧
    lineCountOf (content ++ "\n") = lineCountOf content := by
  refine ⟨rfl, ?_, ?_⟩
  · unfold messageCountOf specLineCount
    congr 1
    apply List.filter_congr
    intro x hx
    exact keepLine_eq_any x
  · unfold lineCountOf
    rw [show (content ++ "\n").data = content.data ++ ['\n'] from by
      simp [String.data_append]]
    rw [splitNl_append_newline, List.filter_append]
    simp [keepLine, trimChars]

/-- Splitting a content that starts with a newline-free line followed by a
newline peels off exactly that line. -/
theorem splitNl_line_append (line rest : List Char) (h : '\n' ∉ line) :
    splitNl (line ++ '\n' :: rest) = line :: splitNl rest := by
  induction line with
  | nil => simp [splitNl]
  | cons c cs ih =>
    have hc : ¬ c = '\n' := fun e => h (e ▸ List.mem_cons_self c cs)
    have hcs : '\n' ∉ cs := fun hm => h (List.mem_cons_of_mem _ hm)
    have step : splitNl ((c :: cs) ++ '\n' :: rest) =
        match splitNl (cs ++ '\n' :: rest) with
        | [] => [[c]]
        | l :: ls => (c :: l) :: ls := by
      rw [List.cons_append]
      conv_lhs => unfold splitNl
      rw [if_neg hc]
    rw [step, ih hcs]

/-- The serialized line of an entry with newline-free fields is itself
newline-free (without its terminating newline). -/
theorem noNl_entry_line (t s b : String) (ht : noNl t) (hs : noNl s)
    (hb : noNl b) : '\n' ∉ ("[" ++ t ++ "] " ++ s ++ ": " ++ b).data := by
  simp only [String.data_append, List.mem_append, not_or]
  refine ⟨⟨⟨⟨⟨?_, ht⟩, ?_⟩, hs⟩, ?_⟩, hb⟩
  · decide
  · decide
  · decide

/-- A serialized entry line is never dropped by the blank-line filter: it
always contains the non-whitespace character `[`. -/
theorem keepLine_entry_line (t s b : String) :
    keepLine ("[" ++ t ++ "] " ++ s ++ ": " ++ b).data = true := by
  rw [keepLine_eq_any, List.any_eq_true]
  refine ⟨'[', ?_, by decide⟩
  simp only [String.data_append, List.mem_append]
  left; left; left; left; left
  decide

/-- Core of the round-trip: when every field of every entry is newline-free,
splitting the accumulated content on newlines and dropping blank segments
returns exactly the serialized lines, in append order. -/
theorem round_trip_lines (entries : List (String × String × String))
    (h : ∀ e ∈ entries, noNl e.1 ∧ noNl e.2.1 ∧ noNl e.2.2 ∧ e.2.2 ≠ "") :
    (splitNl (appendEntriesContent entries).data).filter keepLine =
      entries.map (fun e => ("[" ++ e.1 ++ "] " ++ e.2.1 ++ ": " ++ e.2.2).data) := by
  induction entries with
  | nil => simp [appendEntriesContent, splitNl, keepLine, trimChars]
  | cons e es ih =>
    obtain ⟨t, s, b⟩ := e
    obtain ⟨ht, hs, hb, _⟩ := h (t, s, b) (List.mem_cons_self _ _)
    have hdata : (appendEntriesContent ((t, s, b) :: es)).data =
        ("[" ++ t ++ "] " ++ s ++ ": " ++ b).data ++
          '\n' :: (appendEntriesContent es).data := by
      show (logEntryLine t s b ++ appendEntriesContent es).data = _
      unfold logEntryLine
      simp [String.data_append]
    rw [hdata, splitNl_line_append _ _ (noNl_entry_line t s b ht hs hb)]
    rw [List.filter_cons, keepLine_entry_line t s b]
    simp only [if_true]
    rw [ih (fun x hx => h x (List.mem_cons_of_mem _ hx))]
    simp

/-- C5 (amended): appending N entries whose timestamps, sender names and
bodies are all newline-free (and whose bodies are non-empty) to a fresh
segment and reading the segment back through `/api/logs/:filename` yields the
content verbatim (bodies preserved byte-for-byte) with exactly N reported
lines, in append order. -/
theorem round_trip (entries : List (String × String × String))
    (h : ∀ e ∈ entries, noNl e.1 ∧ noNl e.2.1 ∧ noNl e.2.2 ∧ e.2.2 ≠ "") :
    lineCountOf (appendEntriesContent entries) = entries.length ∧
    (splitNl (appendEntriesContent entries).data).filter keepLine =
      entries.map (fun e => ("[" ++ e.1 ++ "] " ++ e.2.1 ++ ": " ++ e.2.2).data) ∧
    (getLogFileRoute [("retail-allstars-messages-2025-09-26.txt",
        appendEntriesContent entries)] "retail-allstars-messages-2025-09-26.txt").1 =
      LogResult.ok (appendEntriesContent entries) entries.length := by
  have hlines := round_trip_lines entries h
  have hcount : lineCountOf (appendEntriesContent entries) = entries.length := by
    unfold lineCountOf
    rw [hlines, List.length_map]
  refine ⟨hcount, hlines, ?_⟩
  have hvalid : isValidLogFile "retail-allstars-messages-2025-09-26.txt" = true := by
    decide
  simp [getLogFileRoute, hvalid, fsLookup, hcount]

/-- C5 counterexample: the claim constrains only bodies, but a sender name
containing a newline makes one well-bodied entry read back as two lines: one
append with body `hello` (non-empty, newline-free) yields a reported line
count of 2, not 1. -/
theorem round_trip_cex :
    (getLogFileRoute [("retail-allstars-messages-2025-09-26.txt",
        appendEntriesContent [("2025-09-26T08:00:00.000Z", "a\nb", "hello")])]
      "retail-allstars-messages-2025-09-26.txt").1 =
      LogResult.ok
        (appendEntriesContent [("2025-09-26T08:00:00.000Z", "a\nb", "hello")]) 2 := by
  decide

/-- C5 witness: two concrete entries round-trip to exactly their two lines in
order. -/
theorem round_trip_witness :
    lineCountOf (appendEntriesContent
      [("2025-09-26T08:00:00.000Z", "Jane", "hello"),
       ("2025-09-26T08:01:00.000Z", "Bob", "yo")]) = 2 ∧
    (splitNl (appendEntriesContent
      [("2025-09-26T08:00:00.000Z", "Jane", "hello"),
       ("2025-09-26T08:01:00.000Z", "Bob", "yo")]).data).filter keepLine =
      [("2025-09-26T08:00:00.000Z", "Jane", "hello"),
       ("2025-09-26T08:01:00.000Z", "Bob", "yo")].map
        (fun e => ("[" ++ e.1 ++ "] " ++ e.2.1 ++ ": " ++ e.2.2).data) ∧
    (getLogFileRoute [("retail-allstars-messages-2025-09-26.txt",
        appendEntriesContent
          [("2025-09-26T08:00:00.000Z", "Jane", "hello"),
           ("2025-09-26T08:01:00.000Z", "Bob", "yo")])]
      "retail-allstars-messages-2025-09-26.txt").1 =
      LogResult.ok (appendEntriesContent
        [("2025-09-26T08:00:00.000Z", "Jane", "hello"),
         ("2025-09-26T08:01:00.000Z", "Bob", "yo")]) 2 :=
  round_trip
    [("2025-09-26T08:00:00.000Z", "Jane", "hello"),
     ("2025-09-26T08:01:00.000Z", "Bob", "yo")] (by decide)

/-- In a directory without duplicate names, looking an entry up by its own
name finds exactly that entry. -/
theorem findEntry_eq (dir : List DirEntry) (e : DirEntry)
    (hnd : (dir.map DirEntry.name).Nodup) (he : e ∈ dir) :
    findEntry dir e.name = some e := by
  induction dir with
  | nil => cases he
  | cons d rest ih =>
    rw [List.map_cons, List.nodup_cons] at hnd
    rcases List.mem_cons.mp he with rfl | hmem
    · simp [findEntry]
    · have hne : d.name ≠ e.name := fun hEq => by
        refine hnd.1 ?_
        rw [hEq]
        exact List.mem_map_of_mem DirEntry.name hmem
      simp [findEntry, hne, ih hnd.2 hmem]

/-- If any requested file fails to stat or read, the whole batched stat
fails (the model of `Promise.all` rejecting). -/
theorem statAll_error (dir : List DirEntry) (files : List String) (f : String)
    (hf : f ∈ files) (herr : statOne dir f = .error ()) :
    statAll dir files = .error () := by
  induction files with
  | nil => cases hf
  | cons a rest ih =>
    rcases List.mem_cons.mp hf with rfl | hmem
    · unfold statAll
      rw [herr]
    · unfold statAll
      cases h1 : statOne dir a with
      | error err => cases err; rfl
      | ok s => rw [ih hmem]

/-- When every listed entry is readable, the batched stat succeeds and
returns the stats in listing order. -/
theorem statAll_ok (dir : List DirEntry) (es : List DirEntry)
    (hnd : (dir.map DirEntry.name).Nodup)
    (hsub : ∀ x ∈ es, x ∈ dir) (hread : ∀ x ∈ es, x.readable = true) :
    statAll dir (es.map DirEntry.name) = .ok (es.map statOf) := by
  induction es with
  | nil => rfl
  | cons e rest ih =>
    have h1 : statOne dir e.name = .ok (statOf e) := by
      unfold statOne
      rw [findEntry_eq dir e hnd (hsub e (List.mem_cons_self e rest))]
      simp [hread e (List.mem_cons_self e rest)]
    rw [List.map_cons, List.map_cons]
    unfold statAll
    rw [h1, ih (fun x hx => hsub x (List.mem_cons_of_mem _ hx))
      (fun x hx => hread x (List.mem_cons_of_mem _ hx))]

/-- The filenames the status route stats are the names of the directory
entries whose name matches a configured group. -/
theorem targetFiles_eq (dir : List DirEntry) :
    (dir.map DirEntry.name).filter fileMatchesTarget =
      (dir.filter (fun e => fileMatchesTarget e.name)).map DirEntry.name := by
  rw [List.filter_map]
  rfl

/-- C7 counterexample: with one unreadable matching segment alongside a
readable one, the status call fails as a whole (the caught rejection becomes
an HTTP 500) and reports nothing for the remaining readable segment, which
on its own would enumerate fine. -/
theorem status_unreadable_cex :
    loggingStatus true statusCexDir = .error () ∧
    loggingStatus true [statusCexReadable] =
      .ok { targetGroups := TARGET_GROUP_NAMES, totalLogFiles := 1,
            files := [statOf statusCexReadable] } := by
  constructor
  · rfl
  · rfl

/-- C7 (amended): an unreadable individual segment during status enumeration
is not skipped: it makes the whole status call fail with a server error, and
no per-segment results are returned. -/
theorem status_unreadable_fails_call (dir : List DirEntry) (e : DirEntry)
    (hmem : e ∈ dir) (hmatch : fileMatchesTarget e.name = true)
    (hunread : e.readable = false)
    (hnd : (dir.map DirEntry.name).Nodup) :
    loggingStatus true dir = .error () := by
  have hf : e.name ∈ (dir.map DirEntry.name).filter fileMatchesTarget :=
    List.mem_filter.mpr ⟨List.mem_map_of_mem _ hmem, hmatch⟩
  have herr : statOne dir e.name = .error () := by
    unfold statOne
    rw [findEntry_eq dir e hnd hmem]
    simp [hunread]
  have hunf : loggingStatus true dir =
      match statAll dir ((dir.map DirEntry.name).filter fileMatchesTarget) with
      | .ok stats => Except.ok
          { targetGroups := TARGET_GROUP_NAMES,
            totalLogFiles := ((dir.map DirEntry.name).filter fileMatchesTarget).length,
            files := sortByModified stats }
      | .error err => .error err := rfl
  rw [hunf, statAll_error dir _ e.name hf herr]

/-- C7 witness: the amended behavior on the concrete mixed directory. -/
theorem status_unreadable_fails_call_witness :
    loggingStatus true statusCexDir = .error () :=
  status_unreadable_fails_call statusCexDir statusCexUnreadable
    (by decide) (by decide) rfl (by decide)

/-- C8: on a readable directory without duplicate names whose matching
segments are all readable, the status route answers with the full configured
target-group name list and one stat record (filename, size, created,
modified, message count) for every file matching a configured group's slug
prefix; the records are a permutation of the matching files' stats ordered
most-recently-modified first. -/
theorem logging_status_enumeration (dir : List DirEntry)
    (hnd : (dir.map DirEntry.name).Nodup)
    (hread : ∀ e ∈ dir, fileMatchesTarget e.name = true → e.readable = true) :
    loggingStatus true dir =
      .ok { targetGroups := TARGET_GROUP_NAMES,
            totalLogFiles := ((dir.map DirEntry.name).filter fileMatchesTarget).length,
            files := sortByModified
              ((dir.filter (fun e => fileMatchesTarget e.name)).map statOf) } ∧
    (sortByModified ((dir.filter (fun e => fileMatchesTarget e.name)).map statOf)).Perm
      ((dir.filter (fun e => fileMatchesTarget e.name)).map statOf) ∧
    (sortByModified ((dir.filter (fun e => fileMatchesTarget e.name)).map statOf)).Pairwise
      (fun a b => b.modified ≤ a.modified) := by
  haveI hTot : IsTotal FileStat (fun a b => b.modified ≤ a.modified) :=
    ⟨fun a b => le_total b.modified a.modified⟩
  haveI hTrans : IsTrans FileStat (fun a b => b.modified ≤ a.modified) :=
    ⟨fun a b c h1 h2 => le_trans h2 h1⟩
  have hsorted : List.Sorted (fun a b : FileStat => b.modified ≤ a.modified)
      (sortByModified ((dir.filter (fun e => fileMatchesTarget e.name)).map statOf)) :=
    List.sorted_insertionSort _ _
  refine ⟨?_, List.perm_insertionSort _ _, hsorted⟩
  have hsub : ∀ x ∈ dir.filter (fun e => fileMatchesTarget e.name), x ∈ dir :=
    fun x hx => (List.mem_filter.mp hx).1
  have hread2 : ∀ x ∈ dir.filter (fun e => fileMatchesTarget e.name),
      x.readable = true := fun x hx =>
    hread x (List.mem_filter.mp hx).1 (List.mem_filter.mp hx).2
  have hunf : loggingStatus true dir =
      match statAll dir ((dir.map DirEntry.name).filter fileMatchesTarget) with
      | .ok stats => Except.ok
          { targetGroups := TARGET_GROUP_NAMES,
            totalLogFiles := ((dir.map DirEntry.name).filter fileMatchesTarget).length,
            files := sortByModified stats }
      | .error err => .error err := rfl
  rw [hunf, targetFiles_eq dir,
    statAll_ok dir (dir.filter fun e => fileMatchesTarget e.name) hnd hsub hread2]

/-- C8 witness: the enumeration on the concrete readable directory. -/
theorem logging_status_enumeration_witness :
    loggingStatus true statusOkDir =
      .ok { targetGroups := TARGET_GROUP_NAMES,
            totalLogFiles :=
              ((statusOkDir.map DirEntry.name).filter fileMatchesTarget).length,
            files := sortByModified
              ((statusOkDir.filter (fun e => fileMatchesTarget e.name)).map statOf) } ∧
    (sortByModified
        ((statusOkDir.filter (fun e => fileMatchesTarget e.name)).map statOf)).Perm
      ((statusOkDir.filter (fun e => fileMatchesTarget e.name)).map statOf) ∧
    (sortByModified
        ((statusOkDir.filter (fun e => fileMatchesTarget e.name)).map statOf)).Pairwise
      (fun a b => b.modified ≤ a.modified) :=
  logging_status_enumeration statusOkDir (by decide) (by decide)

end WhatsappWeb
